import Mathlib

/-!
# Verification of the prodsys simulation core

Shallow embedding of the discrete-event simulation core of the `prodsys`
repository (queues with two-phase reservation, controller dispatch,
routing, control policies, transport dispatch) together with proofs and
refutations of the specified properties.

Sources embedded:
* `src/prodsim/simulation/store.py` (class `Queue`, on top of simpy's
  `FilterStore`),
* `src/prodsys/simulation/control.py` (controllers and control policies),
* `src/prodsys/simulation/router.py` (routers and heuristics),
* `src/prodsim/factories/resource_factory.py` (`get_resources_with_process`).
-/

namespace Prodsys

/-! ## Queue — `src/prodsim/simulation/store.py`

`Queue(env, queue_data)` stores `capacity = float("inf")` when the configured
capacity is `0`, else the configured capacity; we embed the capacity as
`Option Nat` with `none` standing for the infinite float.  `items` is the
inherited simpy store list, `_pending_put` the reservation counter (a Python
`int`, so embedded as `Int`: nothing stops it from going negative). -/

structure Queue where
  cap : Option Nat
  items : List Nat
  pending_put : Int
deriving DecidableEq, Repr

/-- `Queue.__init__`: configured capacity 0 becomes `float("inf")`. -/
def mkQueue (capacity : Nat) : Queue :=
  { cap := if capacity = 0 then none else some capacity
    items := []
    pending_put := 0 }

/-- `Queue.full`: `(self.capacity - self._pending_put - len(self.items)) <= 0`.
With an infinite capacity the float comparison is always false. -/
def Queue.full (q : Queue) : Bool :=
  match q.cap with
  | none => false
  | some c => decide ((c : Int) - q.pending_put - q.items.length ≤ 0)

/-- `Queue.reserve`: increments `_pending_put` first, then raises
`RuntimeError("Queue is full")` if `self._pending_put + len(self.items) >
self.capacity`.  The returned Bool is `true` iff the exception is raised;
note that the increment survives even on the raising path. -/
def Queue.reserve (q : Queue) : Queue × Bool :=
  let q' := { q with pending_put := q.pending_put + 1 }
  match q.cap with
  | none => (q', false)
  | some c => (q', decide ((c : Int) < q'.pending_put + q.items.length))

/-- `Queue.unreseve` (sic): unconditionally decrements `_pending_put`.
There is no assertion in the source. -/
def Queue.unreseve (q : Queue) : Queue :=
  { q with pending_put := q.pending_put - 1 }

/-- simpy `Store._do_put` succeeds immediately iff `len(self.items) <
self._capacity`; the reservation counter plays no role in `put`. -/
def Queue.putReady (q : Queue) : Bool :=
  match q.cap with
  | none => true
  | some c => decide (q.items.length < c)

/-- simpy `Store.put` (inherited unchanged by `Queue`): appends the item and
succeeds immediately when a physical slot is free, otherwise leaves the
caller suspended (second component `false`).  It never raises. -/
def Queue.put (q : Queue) (x : Nat) : Queue × Bool :=
  if q.putReady then ({ q with items := q.items ++ [x] }, true) else (q, false)

/-- simpy `FilterStore._do_get`: removes and returns the first item matching
the filter, or leaves the getter suspended when none matches. -/
def Queue.get (q : Queue) (f : Nat → Bool) : Queue × Option Nat :=
  match q.items.find? f with
  | some x => ({ q with items := q.items.eraseP f }, some x)
  | none => (q, none)

/-- One queue operation, as a step on the queue state (the post-state of a
raising `reserve` is the state the exception leaves behind). -/
inductive QStep : Queue → Queue → Prop
  | reserve (q : Queue) : QStep q (q.reserve).1
  | unreseve (q : Queue) : QStep q q.unreseve
  | put (q : Queue) (x : Nat) : QStep q (q.put x).1
  | get (q : Queue) (f : Nat → Bool) : QStep q (q.get f).1

/-- States reachable from a freshly built queue of the given configured
capacity by any sequence of queue operations. -/
inductive QReach (capacity : Nat) : Queue → Prop
  | init : QReach capacity (mkQueue capacity)
  | step {q q' : Queue} : QReach capacity q → QStep q q' → QReach capacity q'

theorem QStep.cap_eq {q q' : Queue} (h : QStep q q') : q'.cap = q.cap := by
  cases h with
  | reserve => cases hc : q.cap <;> simp [Queue.reserve, hc]
  | unreseve => rfl
  | put x => by_cases hr : q.putReady <;> simp [Queue.put, hr]
  | get f => cases hf : q.items.find? f <;> simp [Queue.get, hf]

theorem QReach.cap_none {q : Queue} (h : QReach 0 q) : q.cap = none := by
  induction h with
  | init => rfl
  | step _ hs ih => rw [hs.cap_eq]; exact ih

/-- C1 (counterexample).  On a queue of capacity 1, after one successful
`reserve()` we have `items.len() + pending_put = 0 + 1 >= capacity`, so the
claim demands that the next `put` fail with QueueFull.  Instead, `put`
(inherited from simpy, which checks only the physical item count) appends
immediately and succeeds, and the resulting state has
`items.len() + pending_put = 2 > capacity = 1`: the claimed invariant is
violated by a successful operation. -/
theorem queue_put_invariant_counterexample :
    ((mkQueue 1).reserve).2 = false ∧
    (((mkQueue 1).reserve).1.items.length : Int) + ((mkQueue 1).reserve).1.pending_put ≥ 1 ∧
    (((mkQueue 1).reserve).1.put 5).2 = true ∧
    ((((mkQueue 1).reserve).1.put 5).1.items.length : Int)
      + (((mkQueue 1).reserve).1.put 5).1.pending_put = 2 := by
  decide

/-- C1 (amended).  For a finite-capacity queue: `reserve()` raises
QueueFull (a `RuntimeError`) exactly when the claim would exceed capacity,
i.e. when `pending_put + 1 + items.len() > capacity`, and it increments
`pending_put` (even when raising); after a *successful* `reserve` the
invariant `items.len() + pending_put <= capacity` holds.  `put`, however,
never fails with QueueFull: it appends immediately iff `items.len() <
capacity`, ignoring `pending_put` entirely (and otherwise suspends the
caller without error), so the invariant is not preserved across `put`. -/
theorem queue_reserve_put_semantics (q : Queue) (c : Nat) (x : Nat) (h : q.cap = some c) :
    ((q.reserve).2 = true ↔ (c : Int) < (q.pending_put + 1) + q.items.length) ∧
    (q.reserve).1.pending_put = q.pending_put + 1 ∧
    ((q.reserve).2 = false →
      ((q.reserve).1.items.length : Int) + (q.reserve).1.pending_put ≤ c) ∧
    ((q.put x).2 = true ↔ q.items.length < c) ∧
    ((q.put x).2 = true → (q.put x).1.items = q.items ++ [x]) ∧
    ((q.put x).2 = false → (q.put x).1 = q) := by
  refine ⟨?_, ?_, ?_, ?_, ?_, ?_⟩
  · simp [Queue.reserve, h]
  · simp [Queue.reserve, h]
  · simp only [Queue.reserve, h]
    intro hno
    simp at hno
    omega
  · simp only [Queue.put, Queue.putReady, h]
    by_cases hl : q.items.length < c <;> simp [hl]
  · intro hp
    simp only [Queue.put] at hp ⊢
    by_cases hr : q.putReady
    · simp [hr]
    · simp [hr] at hp
  · intro hp
    simp only [Queue.put] at hp ⊢
    by_cases hr : q.putReady
    · simp [hr] at hp
    · simp [hr]

/-- Witness for `queue_reserve_put_semantics` at a concrete queue. -/
theorem queue_reserve_put_semantics_witness :
    (mkQueue 2).cap = some 2 ∧
    (((mkQueue 2).reserve).2 = true ↔ (2 : Int) < ((mkQueue 2).pending_put + 1) + (mkQueue 2).items.length) := by
  refine ⟨by decide, (queue_reserve_put_semantics (mkQueue 2) 2 7 (by decide)).1⟩

/-- C6 (counterexample).  `unreseve()` on a fresh queue (no prior
`reserve`) simply decrements the counter: `pending_put` becomes `-1` and no
assertion or error of any kind is raised — the source body is the single
unconditional statement `self._pending_put -= 1`. -/
theorem queue_unreserve_no_assertion_counterexample :
    ((mkQueue 1).unreseve).pending_put = -1 := by
  decide

/-- C6 (amended).  Calling `unreseve()` exactly once after a successful
`reserve()` restores the entire queue state (in particular `pending_put`
returns to its pre-reservation value).  A mismatched extra `unreseve()`,
however, is *not* caught by any assertion: the counter silently goes
negative. -/
theorem queue_unreserve_inverse (q : Queue) (_h : (q.reserve).2 = false) :
    (q.reserve).1.unreseve = q ∧ ((mkQueue 1).unreseve).pending_put < 0 := by
  constructor
  · have h1 : (q.reserve).1 = { q with pending_put := q.pending_put + 1 } := by
      cases hc : q.cap <;> simp [Queue.reserve, hc]
    rw [h1]
    simp [Queue.unreseve]
  · decide

/-- Witness for `queue_unreserve_inverse` at a concrete queue. -/
theorem queue_unreserve_inverse_witness :
    ((mkQueue 3).reserve).2 = false ∧ ((mkQueue 3).reserve).1.unreseve = mkQueue 3 :=
  ⟨by decide, (queue_unreserve_inverse (mkQueue 3) (by decide)).1⟩

/-- C9.  A queue configured with capacity 0 gets internal capacity
`float("inf")`: in every reachable state `full()` is `False`, `reserve()`
never raises QueueFull, and `put` succeeds immediately (never suspends the
caller). -/
theorem queue_capacity_zero_unbounded (q : Queue) (h : QReach 0 q) :
    q.full = false ∧ (q.reserve).2 = false ∧ ∀ x : Nat, (q.put x).2 = true := by
  have hc := h.cap_none
  refine ⟨?_, ?_, fun x => ?_⟩ <;>
    simp [Queue.full, Queue.reserve, Queue.put, Queue.putReady, hc]

/-- Witness for `queue_capacity_zero_unbounded` at the initial state. -/
theorem queue_capacity_zero_unbounded_witness :
    (mkQueue 0).full = false ∧ ((mkQueue 0).reserve).2 = false ∧
      ((mkQueue 0).put 5).2 = true :=
  ⟨(queue_capacity_zero_unbounded (mkQueue 0) QReach.init).1,
   (queue_capacity_zero_unbounded (mkQueue 0) QReach.init).2.1,
   (queue_capacity_zero_unbounded (mkQueue 0) QReach.init).2.2 5⟩

/-! ## Control policies — `src/prodsys/simulation/control.py`

The policies mutate the request list in place; we embed each as the function
from the list before the call to the list after it.  Python's `list.sort` is
a stable ascending sort by the key, which `List.insertionSort` implements. -/

/-- A production process as seen by `SPT_control_policy`: only its
`get_expected_process_time()` matters. -/
structure ProcessModel where
  expected_process_time : Nat
deriving DecidableEq, Repr

/-- `request.Request`, reduced to the fields the policies inspect. -/
structure Request where
  id : Nat
  process : ProcessModel
deriving DecidableEq, Repr

/-- A location, the result of `get_location()`. -/
def Loc : Type := Int × Int
deriving DecidableEq

/-- A transport process as seen by `SPT_transport_control_policy`:
`get_expected_process_time(origin_location, target_location)`. -/
structure TransportProcessModel where
  expected_process_time : Loc → Loc → Nat

/-- `request.TransportResquest` (sic), reduced to the fields the transport
policy inspects (`origin.get_location()` and `target.get_location()` are
flattened into the stored locations). -/
structure TransportResquest where
  id : Nat
  process : TransportProcessModel
  origin_location : Loc
  target_location : Loc

/-- `FIFO_control_policy`: `pass` — the list is untouched. -/
def FIFO_control_policy (requests : List Request) : List Request :=
  requests

/-- `LIFO_control_policy`: `requests.reverse()`. -/
def LIFO_control_policy (requests : List Request) : List Request :=
  requests.reverse

/-- The sort key of `SPT_control_policy`. -/
def sptKey (x : Request) : Nat :=
  x.process.expected_process_time

/-- `SPT_control_policy`: `requests.sort(key=lambda x:
x.process.get_expected_process_time())`. -/
def SPT_control_policy (requests : List Request) : List Request :=
  List.insertionSort (fun a b => sptKey a ≤ sptKey b) requests

/-- The sort key of `SPT_transport_control_policy`. -/
def sptTransportKey (x : TransportResquest) : Nat :=
  x.process.expected_process_time x.origin_location x.target_location

/-- `SPT_transport_control_policy`: sort by
`x.process.get_expected_process_time(x.origin.get_location(),
x.target.get_location())`. -/
def SPT_transport_control_policy (requests : List TransportResquest) : List TransportResquest :=
  List.insertionSort (fun a b => sptTransportKey a ≤ sptTransportKey b) requests

theorem sorted_insertionSort_key {α : Type} (key : α → Nat) (l : List α) :
    (List.insertionSort (fun a b => key a ≤ key b) l).Pairwise
      (fun a b => key a ≤ key b) := by
  have ht : IsTotal α (fun a b => key a ≤ key b) := ⟨fun a b => Nat.le_total _ _⟩
  have hr : IsTrans α (fun a b => key a ≤ key b) :=
    ⟨fun a b c hab hbc => Nat.le_trans hab hbc⟩
  exact List.sorted_insertionSort _ l

/-- C7.  `SPT_control_policy` reorders any pending request list into
ascending order of expected process duration (and is a permutation of it),
`SPT_transport_control_policy` does the same for the expected duration at
each request's origin/target pair, and on requests with expected durations
`[5, 1, 3]` the SPT order is duration-1, duration-3, duration-5. -/
theorem spt_policies_sort_ascending :
    (∀ requests : List Request,
        (SPT_control_policy requests).Pairwise (fun a b => sptKey a ≤ sptKey b) ∧
        (SPT_control_policy requests).Perm requests) ∧
    (∀ requests : List TransportResquest,
        (SPT_transport_control_policy requests).Pairwise
          (fun a b => sptTransportKey a ≤ sptTransportKey b) ∧
        (SPT_transport_control_policy requests).Perm requests) ∧
    (SPT_control_policy
        [⟨0, ⟨5⟩⟩, ⟨1, ⟨1⟩⟩, ⟨2, ⟨3⟩⟩]).map sptKey = [1, 3, 5] := by
  refine ⟨fun requests => ⟨?_, ?_⟩, fun requests => ⟨?_, ?_⟩, ?_⟩
  · exact sorted_insertionSort_key sptKey requests
  · exact List.perm_insertionSort _ requests
  · exact sorted_insertionSort_key sptTransportKey requests
  · exact List.perm_insertionSort _ requests
  · decide

/-! ## Controllers — `src/prodsys/simulation/control.py`

The observable controller state consists of the pending request list
`self.requests`, the counter `self.reserved_requests_count`, the triggered
flag of the `self.requested` signal, and — as a ghost variable for the
dispatch protocol — the number of `start_process` tasks that have been
spawned by the control loop but have not yet executed their
`self.requests.pop(0)` (each spawned task performs exactly one such pop,
immediately after its initial `yield self.env.timeout(0)`).

Requests are identified by `Nat` tokens; the control policy is an arbitrary
in-place reordering, embedded as a list function. -/

structure CtrlState where
  requests : List Nat
  reserved_requests_count : Nat
  pendingStarts : Nat
  requestedFlag : Bool
deriving DecidableEq, Repr

/-- The controller state at construction: no requests, counter 0, untripped
`requested` event, no running `start_process`. -/
def initCtrl : CtrlState :=
  { requests := [], reserved_requests_count := 0, pendingStarts := 0, requestedFlag := false }

/-- `Controller.request`: appends the request and triggers the `requested`
event if it is not already triggered. -/
def requestAdd (r : Nat) (s : CtrlState) : CtrlState :=
  { s with requests := s.requests ++ [r], requestedFlag := true }

/-- One iteration body of `ProductionController.control_loop` after the
`yield` returns (lines 205-224): reset the `requested` event; if the
resource is full, or there are no requests, or
`reserved_requests_count == len(requests)`, go back to waiting; otherwise
apply the control policy, increment `reserved_requests_count`, spawn a new
`start_process` task, and — the resource not being full — re-fire the
`requested` signal. -/
def prodWake (full : Bool) (policy : List Nat → List Nat) (s : CtrlState) : CtrlState :=
  if full || s.requests.isEmpty || (s.reserved_requests_count == s.requests.length) then
    { s with requestedFlag := false }
  else
    { s with
      requests := policy s.requests
      reserved_requests_count := s.reserved_requests_count + 1
      pendingStarts := s.pendingStarts + 1
      requestedFlag := !full }

/-- One iteration body of `TransportController.control_loop` (lines
381-399): same shape, but the guard checks only fullness and emptiness, and
`reserved_requests_count` is never touched. -/
def transWake (full : Bool) (policy : List Nat → List Nat) (s : CtrlState) : CtrlState :=
  if full || s.requests.isEmpty then
    { s with requestedFlag := false }
  else
    { s with
      requests := policy s.requests
      pendingStarts := s.pendingStarts + 1
      requestedFlag := !full }

/-- The pop step of `ProductionController.start_process` (lines 240-242):
after `yield self.env.timeout(0)`, `self.requests.pop(0)` and
`self.reserved_requests_count -= 1`. -/
def prodStartPop (s : CtrlState) : CtrlState :=
  { s with
    requests := s.requests.tail
    reserved_requests_count := s.reserved_requests_count - 1
    pendingStarts := s.pendingStarts - 1 }

/-- The pop step of `TransportController.start_process` (lines 432-433):
after `yield self.env.timeout(0)`, `self.requests.pop(0)`; the counter is
not decremented because the transport controller never incremented it. -/
def transStartPop (s : CtrlState) : CtrlState :=
  { s with requests := s.requests.tail, pendingStarts := s.pendingStarts - 1 }

/-- Steps of a `ProductionController`: external `request` calls, control
loop wakes (at an arbitrary resource-fullness reading — the proofs hold for
every interleaving of wakes with the pop steps), and the pop step of a
spawned `start_process`. -/
inductive PStep (policy : List Nat → List Nat) : CtrlState → CtrlState → Prop
  | request (s : CtrlState) (r : Nat) : PStep policy s (requestAdd r s)
  | wake (s : CtrlState) (full : Bool) : PStep policy s (prodWake full policy s)
  | start (s : CtrlState) : 0 < s.pendingStarts → PStep policy s (prodStartPop s)

inductive PReach (policy : List Nat → List Nat) : CtrlState → Prop
  | init : PReach policy initCtrl
  | step {s s' : CtrlState} : PReach policy s → PStep policy s s' → PReach policy s'

/-- Steps of a `TransportController`.  Wakes may be interleaved with the
pop steps of spawned `start_process` tasks at any point: in particular the
removal-while-iterating over `running_processes` at control.py:388-390 can
skip an already-processed process, so the re-created `AnyOf` contains a
processed event, succeeds at construction, and schedules the next wake
*before* a freshly spawned `start_process` executes its `timeout(0)` pop. -/
inductive TStep (policy : List Nat → List Nat) : CtrlState → CtrlState → Prop
  | request (s : CtrlState) (r : Nat) : TStep policy s (requestAdd r s)
  | wake (s : CtrlState) (full : Bool) : TStep policy s (transWake full policy s)
  | start (s : CtrlState) : 0 < s.pendingStarts → TStep policy s (transStartPop s)

inductive TReach (policy : List Nat → List Nat) : CtrlState → Prop
  | init : TReach policy initCtrl
  | step {s s' : CtrlState} : TReach policy s → TStep policy s s' → TReach policy s'

/-- The production invariant is preserved by every step. -/
theorem pstep_inv {policy : List Nat → List Nat}
    (hp : ∀ l, (policy l).length = l.length) {s s' : CtrlState}
    (hstep : PStep policy s s')
    (h1 : s.pendingStarts = s.reserved_requests_count)
    (h2 : s.reserved_requests_count ≤ s.requests.length) :
    s'.pendingStarts = s'.reserved_requests_count ∧
      s'.reserved_requests_count ≤ s'.requests.length := by
  cases hstep with
  | request r =>
    refine ⟨h1, ?_⟩
    simp only [requestAdd, List.length_append, List.length_cons, List.length_nil]
    omega
  | wake full =>
    simp only [prodWake]
    split
    · exact ⟨h1, h2⟩
    · rename_i hcond
      simp only [Bool.or_eq_true, beq_iff_eq, not_or, List.isEmpty_iff] at hcond
      obtain ⟨⟨hfull, hne⟩, hneq⟩ := hcond
      have hlen : (policy s.requests).length = s.requests.length := hp _
      refine ⟨by simp [h1], ?_⟩
      simp only [hlen]
      omega
  | start hpos =>
    refine ⟨?_, ?_⟩ <;> simp only [prodStartPop, List.length_tail] <;> omega

/-- No transport step ever touches `reserved_requests_count`. -/
theorem tstep_inv {policy : List Nat → List Nat} {s s' : CtrlState}
    (hstep : TStep policy s s')
    (h1 : s.reserved_requests_count = 0) :
    s'.reserved_requests_count = 0 := by
  cases hstep with
  | request r => exact h1
  | wake full =>
    simp only [transWake]
    split
    · exact h1
    · exact h1
  | start hpos => exact h1

/-- Inductive invariant of the production controller: the ghost count of
in-flight `start_process` tasks always equals `reserved_requests_count`,
which never exceeds the pending request count. -/
theorem preach_invariant {policy : List Nat → List Nat}
    (hp : ∀ l, (policy l).length = l.length) {s : CtrlState} (h : PReach policy s) :
    s.pendingStarts = s.reserved_requests_count ∧
      s.reserved_requests_count ≤ s.requests.length := by
  induction h with
  | init => exact ⟨rfl, Nat.le_refl 0⟩
  | step _ hs ih => exact pstep_inv hp hs ih.1 ih.2

/-- Inductive invariant of the transport controller:
`reserved_requests_count` stays 0 — the transport controller never uses
the reservation counter. -/
theorem treach_invariant {policy : List Nat → List Nat}
    {s : CtrlState} (h : TReach policy s) :
    s.reserved_requests_count = 0 := by
  induction h with
  | init => rfl
  | step _ hs ih => exact tstep_inv hs ih

/-- C2 (counterexample).  For the transport controller the exactly-once
property fails: from a fresh controller with one pending request, two
control-loop wakes at a non-full resource each dispatch a `start_process`
for the same head request — the guard at control.py:391 checks only
fullness and emptiness, and nothing orders the second wake after the first
task's `pop(0)` (the removal-while-iterating at control.py:388-390 can skip
an already-processed process, so the re-created `AnyOf` contains a
processed event, succeeds at construction, and schedules the next wake
before the spawned task's `timeout(0)` pop).  After the first pop the
reached state has an outstanding `start_process` (`pendingStarts = 1`) and
an empty request list: its `self.requests.pop(0)` raises `IndexError` —
the single request was dispatched twice. -/
theorem transport_double_dispatch_counterexample :
    TReach (fun l => l)
      { requests := [], reserved_requests_count := 0, pendingStarts := 1,
        requestedFlag := true } ∧
    ({ requests := [], reserved_requests_count := 0, pendingStarts := 1,
       requestedFlag := true } : CtrlState).requests = [] ∧
    0 < ({ requests := [], reserved_requests_count := 0, pendingStarts := 1,
           requestedFlag := true } : CtrlState).pendingStarts := by
  refine ⟨?_, rfl, Nat.zero_lt_one⟩
  have h1 : TReach (fun l => l)
      { requests := [7], reserved_requests_count := 0, pendingStarts := 0,
        requestedFlag := true } := by
    have e : requestAdd 7 initCtrl =
        { requests := [7], reserved_requests_count := 0, pendingStarts := 0,
          requestedFlag := true } := by decide
    exact e ▸ TReach.step TReach.init (TStep.request initCtrl 7)
  have h2 : TReach (fun l => l)
      { requests := [7], reserved_requests_count := 0, pendingStarts := 1,
        requestedFlag := true } := by
    have e : transWake false (fun l => l)
        { requests := [7], reserved_requests_count := 0, pendingStarts := 0,
          requestedFlag := true } =
        { requests := [7], reserved_requests_count := 0, pendingStarts := 1,
          requestedFlag := true } := by decide
    exact e ▸ TReach.step h1 (TStep.wake _ false)
  have h3 : TReach (fun l => l)
      { requests := [7], reserved_requests_count := 0, pendingStarts := 2,
        requestedFlag := true } := by
    have e : transWake false (fun l => l)
        { requests := [7], reserved_requests_count := 0, pendingStarts := 1,
          requestedFlag := true } =
        { requests := [7], reserved_requests_count := 0, pendingStarts := 2,
          requestedFlag := true } := by decide
    exact e ▸ TReach.step h2 (TStep.wake _ false)
  have e : transStartPop
      { requests := [7], reserved_requests_count := 0, pendingStarts := 2,
        requestedFlag := true } =
      { requests := [], reserved_requests_count := 0, pendingStarts := 1,
        requestedFlag := true } := by decide
  exact e ▸ TReach.step h3 (TStep.start _ (by decide))

/-- C2 (amended).  For every `ProductionController`, under *every*
interleaving of wakes, request arrivals and `start_process` pops:
`reserved_requests_count <= len(requests)` holds, the number of dispatched
`start_process` tasks that have not yet consumed a request never exceeds
the pending-request count (so no control-loop wake dispatches the same
pending request twice — the `reserved_requests_count == len(requests)`
guard enforces this), and each `start_process` removes exactly one request
— the head of a non-empty list — at the moment it starts.  A
`TransportController` never touches `reserved_requests_count`, so the
counter invariant holds trivially (it stays 0), but nothing bounds its
in-flight dispatches by the pending-request count: a wake between a
dispatch and its pop can dispatch the same pending request twice (see the
counterexample). -/
theorem controller_reservation_exactly_once
    (policy : List Nat → List Nat) (hp : ∀ l, (policy l).length = l.length)
    (s : CtrlState) :
    (PReach policy s →
      s.reserved_requests_count ≤ s.requests.length ∧
      s.pendingStarts ≤ s.requests.length ∧
      (0 < s.pendingStarts →
        s.requests ≠ [] ∧ (prodStartPop s).requests = s.requests.tail)) ∧
    (TReach policy s →
      s.reserved_requests_count = 0 ∧
      s.reserved_requests_count ≤ s.requests.length) := by
  constructor
  · intro h
    obtain ⟨h1, h2⟩ := preach_invariant hp h
    refine ⟨h2, by omega, fun hpos => ⟨?_, rfl⟩⟩
    have : 0 < s.requests.length := by omega
    exact List.ne_nil_of_length_pos this
  · intro h
    have h1 := treach_invariant h
    exact ⟨h1, by omega⟩

/-- Witness for `controller_reservation_exactly_once`: the FIFO policy and
the production state reached by one `request` and one dispatching wake. -/
theorem controller_reservation_exactly_once_witness :
    (prodWake false (fun l => l) (requestAdd 4 initCtrl)).requests ≠ [] := by
  have hreach : PReach (fun l => l) (prodWake false (fun l => l) (requestAdd 4 initCtrl)) :=
    PReach.step (PReach.step PReach.init (PStep.request initCtrl 4))
      (PStep.wake (requestAdd 4 initCtrl) false)
  exact (((controller_reservation_exactly_once (fun l => l) (fun l => rfl) _).1 hreach).2.2
    (by decide)).1

/-- C3 (counterexample).  A `TransportController` wake at a non-full
resource with one pending request and `reserved_requests_count = 0 <
len(requests) = 1` dispatches a new `start_process` task but leaves
`reserved_requests_count` at 0 — the claim requires every dispatching wake
to increment the counter. -/
theorem transport_wake_no_reservation_counterexample :
    (transWake false (fun l => l) ⟨[7], 0, 0, true⟩).pendingStarts = 1 ∧
    (transWake false (fun l => l) ⟨[7], 0, 0, true⟩).reserved_requests_count = 0 := by
  constructor <;> rfl

/-- C3 (amended).  `ProductionController.control_loop` behaves exactly as
claimed: on a wake it returns to waiting iff the resource is full, or there
are no pending requests, or `reserved_requests_count == len(requests)`, and
otherwise applies the control policy, spawns a `start_process` task for the
head of the reordered list and increments `reserved_requests_count`.
`TransportController.control_loop` uses only the full-or-no-requests guard
and its dispatch leaves `reserved_requests_count` unchanged. -/
theorem control_loop_wake_behavior (full : Bool) (policy : List Nat → List Nat)
    (s : CtrlState) :
    ((full || s.requests.isEmpty
        || (s.reserved_requests_count == s.requests.length)) = true →
      prodWake full policy s = { s with requestedFlag := false }) ∧
    ((full || s.requests.isEmpty
        || (s.reserved_requests_count == s.requests.length)) = false →
      prodWake full policy s =
        { s with
          requests := policy s.requests
          reserved_requests_count := s.reserved_requests_count + 1
          pendingStarts := s.pendingStarts + 1
          requestedFlag := true }) ∧
    ((full || s.requests.isEmpty) = true →
      transWake full policy s = { s with requestedFlag := false }) ∧
    ((full || s.requests.isEmpty) = false →
      transWake full policy s =
        { s with
          requests := policy s.requests
          pendingStarts := s.pendingStarts + 1
          requestedFlag := true }) := by
  refine ⟨?_, ?_, ?_, ?_⟩
  · intro h
    simp [prodWake, h]
  · intro h
    rcases Bool.or_eq_false_iff.mp h with ⟨h', hneq⟩
    rcases Bool.or_eq_false_iff.mp h' with ⟨hf, hne⟩
    simp [prodWake, hf, hne, hneq]
  · intro h
    simp [transWake, h]
  · intro h
    rcases Bool.or_eq_false_iff.mp h with ⟨hf, hne⟩
    simp [transWake, hf, hne]

/-- Witness for `control_loop_wake_behavior`: a dispatching production wake
at a concrete state. -/
theorem control_loop_wake_behavior_witness :
    prodWake false (fun l => l) ⟨[3], 0, 0, true⟩ =
      { requests := [3], reserved_requests_count := 1, pendingStarts := 1,
        requestedFlag := true } :=
  (control_loop_wake_behavior false (fun l => l) ⟨[3], 0, 0, true⟩).2.1 (by decide)

/-! ## Scenario B — deterministic event-loop run

A concrete run of the simpy event loop for one production resource of
capacity 2 whose controller receives two requests at the same instant
`t = 0`.  Events carry simpy's ordering key `(time, priority, sequence)`:
priority 0 is simpy's URGENT (used for the `Initialize` event of
`env.process(...)`), priority 1 is NORMAL (used by `Event.succeed` and
`Timeout`); ties are broken by the global schedule sequence number.  The
control loop sleeps on `AnyOf(running_processes + [requested])`, so a
`requested.succeed()` resumes it with one extra scheduling hop: processing
the `requested` event fires the condition, which schedules the condition's
own event, whose processing runs the wake body. -/

inductive Act where
  | extReq (r : Nat)
  | reqEv
  | condEv
  | initStart
  | timeoutStart
deriving DecidableEq, Repr

structure Ev where
  time : Nat
  prio : Nat
  seq : Nat
  act : Act
deriving DecidableEq, Repr

/-- simpy's heap order on `(time, priority, sequence)`. -/
def evBefore (a b : Ev) : Bool :=
  a.time < b.time
    || (a.time == b.time
        && (a.prio < b.prio || (a.prio == b.prio && a.seq < b.seq)))

/-- Pop the minimal event of the pending set. -/
def popNext : List Ev → Option (Ev × List Ev)
  | [] => none
  | e :: rest =>
    match popNext rest with
    | none => some (e, [])
    | some (m, rest') =>
      if evBefore m e then some (m, e :: rest') else some (e, rest)

structure Sim where
  now : Nat
  evs : List Ev
  seqc : Nat
  ctrl : CtrlState
  startedCount : Nat
  startLog : List Nat
deriving DecidableEq, Repr

/-- `env.schedule`: enqueue an event at the given time and priority with the
next global sequence number. -/
def schedule (t prio : Nat) (a : Act) (s : Sim) : Sim :=
  { s with evs := s.evs ++ [⟨t, prio, s.seqc, a⟩], seqc := s.seqc + 1 }

/-- The capacity of the single production resource of scenario B. -/
def capacityB : Nat := 2

/-- Process one event of the scenario, exactly as simpy dispatches it:

* `extReq r` — an external caller runs `controller.request(r)`: append the
  request and, if the `requested` event is untriggered, `succeed()` it
  (scheduling its processing at NORMAL priority);
* `reqEv` — the `requested` event is processed; the control loop's `AnyOf`
  condition fires and schedules its own event;
* `condEv` — the control loop wakes and runs the `prodWake` body (FIFO
  policy); a dispatch spawns `start_process` (an URGENT `Initialize`) and,
  the resource not being full, re-fires `requested`;
* `initStart` — the spawned `start_process` runs to `yield
  self.env.timeout(0)`, scheduling the timeout;
* `timeoutStart` — `start_process` resumes: `requests.pop(0)`,
  `reserved_requests_count -= 1`; the process start is logged with the
  current virtual time. -/
def simStep (s : Sim) : Sim :=
  match popNext s.evs with
  | none => s
  | some (e, rest) =>
    let s := { s with evs := rest, now := e.time }
    match e.act with
    | Act.extReq r =>
      let wasTriggered := s.ctrl.requestedFlag
      let s := { s with ctrl := requestAdd r s.ctrl }
      if wasTriggered then s else schedule s.now 1 Act.reqEv s
    | Act.reqEv => schedule s.now 1 Act.condEv s
    | Act.condEv =>
      let full := decide (capacityB ≤ s.startedCount)
      let dispatch := !(full || s.ctrl.requests.isEmpty
          || (s.ctrl.reserved_requests_count == s.ctrl.requests.length))
      let s := { s with ctrl := prodWake full (fun l => l) s.ctrl }
      if dispatch then schedule s.now 1 Act.reqEv (schedule s.now 0 Act.initStart s)
      else s
    | Act.initStart => schedule s.now 1 Act.timeoutStart s
    | Act.timeoutStart =>
      let s := { s with ctrl := prodStartPop s.ctrl }
      { s with startedCount := s.startedCount + 1, startLog := s.startLog ++ [s.now] }

def runSim : Nat → Sim → Sim
  | 0, s => s
  | fuel + 1, s => runSim fuel (simStep s)

/-- Scenario B start state: two `controller.request` calls pending at
`t = 0`, fresh controller. -/
def scenarioBInit : Sim :=
  { now := 0
    evs := [⟨0, 1, 0, Act.extReq 1⟩, ⟨0, 1, 1, Act.extReq 2⟩]
    seqc := 2
    ctrl := initCtrl
    startedCount := 0
    startLog := [] }

/-- Scenario B, run to quiescence (12 event dispatches drain the queue). -/
def scenarioB : Sim := runSim 12 scenarioBInit

/-- C4.  After a dispatching wake of either control loop at a non-full
resource, the `requested` signal is re-fired within the same wake
(`requestedFlag` is left triggered while a new `start_process` task is
spawned), so the loop re-evaluates without an external caller — for
`ProductionController.control_loop` (lines 220-224) and for
`TransportController.control_loop` (lines 395-399) alike; and in the
concrete deterministic run of scenario B — one resource of capacity 2, two
requests arriving at the same instant — both `start_process` tasks start at
`t = 0` (the event queue drains with both starts logged at time 0 and no
request left pending). -/
theorem wake_self_rearming_and_scenarioB :
    (∀ (policy : List Nat → List Nat) (s : CtrlState),
      (s.requests.isEmpty || (s.reserved_requests_count == s.requests.length)) = false →
      (prodWake false policy s).requestedFlag = true ∧
      (prodWake false policy s).pendingStarts = s.pendingStarts + 1) ∧
    (∀ (policy : List Nat → List Nat) (s : CtrlState),
      s.requests.isEmpty = false →
      (transWake false policy s).requestedFlag = true ∧
      (transWake false policy s).pendingStarts = s.pendingStarts + 1) ∧
    scenarioB.startLog = [0, 0] ∧ scenarioB.evs = [] ∧ scenarioB.ctrl.requests = [] := by
  refine ⟨?_, ?_, ?_⟩
  · intro policy s h
    rcases Bool.or_eq_false_iff.mp h with ⟨hne, hneq⟩
    constructor <;> simp [prodWake, hne, hneq]
  · intro policy s hne
    constructor <;> simp [transWake, hne]
  · refine ⟨by rfl, by rfl, by rfl⟩

/-- Witness for `wake_self_rearming_and_scenarioB` at concrete states of
both controllers. -/
theorem wake_self_rearming_and_scenarioB_witness :
    (prodWake false (fun l => l) ⟨[9], 0, 0, false⟩).requestedFlag = true ∧
    (transWake false (fun l => l) ⟨[9], 0, 0, false⟩).requestedFlag = true :=
  ⟨(wake_self_rearming_and_scenarioB.1 (fun l => l) ⟨[9], 0, 0, false⟩ (by decide)).1,
   (wake_self_rearming_and_scenarioB.2.1 (fun l => l) ⟨[9], 0, 0, false⟩ (by decide)).1⟩

/-! ## Router — `src/prodsys/simulation/router.py`

Processes are identified by an ID; a `CapabilityProcess` additionally
declares a capability.  A resource carries its ID, whether it is a
`ProductionResource`, its input queues and its process list (transport
resources have no input queues, embedded as the empty list). -/

inductive RProcess where
  | production (pid : Nat)
  | capability (pid : Nat) (cap : Nat)
  | transport (pid : Nat)
deriving DecidableEq, Repr

def RProcess.pid : RProcess → Nat
  | .production p => p
  | .capability p _ => p
  | .transport p => p

structure Resource where
  id : Nat
  isProduction : Bool
  input_queues : List Queue
  processes : List RProcess
deriving DecidableEq, Repr

/-- `ResourceFactory.get_resources_with_process`: the resources whose
process-ID list contains the target process's ID. -/
def get_resources_with_process (all : List Resource) (p : RProcess) : List Resource :=
  all.filter (fun r => (r.processes.map RProcess.pid).contains p.pid)

/-- `get_resource_capabilities`: the capabilities of the resource's
`CapabilityProcess` entries. -/
def get_resource_capabilities (r : Resource) : List Nat :=
  r.processes.filterMap (fun pr =>
    match pr with
    | RProcess.capability _ c => some c
    | _ => none)

/-- The elimination pass used below: a production resource with a full
input queue removes every resource carrying its ID from `left_resources`. -/
def simpleEliminate (left : List Resource) (r : Resource) : List Resource :=
  if r.isProduction && r.input_queues.any Queue.full then
    left.filter (fun x => !(x.id == r.id))
  else left

/-- The loop of `SimpleRouter.get_next_resource` (lines 47-54):
`left_resources` starts as a copy of `possible_resources` and each
production resource with a full input queue eliminates itself. -/
def simpleEligible (possible : List Resource) : List Resource :=
  possible.foldl simpleEliminate possible

/-- `SimpleRouter.get_next_resource`: `None` on an empty eligible set,
otherwise the pluggable routing heuristic applied to it (the heuristic
returns a member of its argument; `none` embeds a raising heuristic such as
`pop(0)` of an empty list). -/
def SimpleRouter_get_next_resource (all : List Resource) (p : RProcess)
    (heuristic : List Resource → Option Resource) : Option Resource :=
  let left := simpleEligible (get_resources_with_process all p)
  if left.isEmpty then none else heuristic left

/-- `FIFO_routing_heuristic`: `possible_resources.pop(0)` — the head of the
list; on an empty list `pop(0)` raises `IndexError` (embedded as `none`). -/
def FIFO_routing_heuristic (possible : List Resource) : Option Resource :=
  possible.head?

/-- `CapabilityRouter.get_next_resource_per_ID`: the heuristic applied to
the candidates with no emptiness guard whatsoever. -/
def CapabilityRouter_get_next_resource_per_ID (all : List Resource) (p : RProcess)
    (heuristic : List Resource → Option Resource) : Option Resource :=
  heuristic (get_resources_with_process all p)

/-- `CapabilityRouter.get_next_resource` (lines 76-91).  `Except.error`
marks the raising paths: a process that is neither a capability nor a
transport process (`ValueError`), and the transport branch's unguarded
heuristic application, which raises (`IndexError` in
`FIFO_routing_heuristic`'s `pop(0)`) when there is no candidate, instead of
returning `None`. -/
def CapabilityRouter_get_next_resource (all : List Resource) (p : RProcess)
    (heuristic : List Resource → Option Resource) : Except String (Option Resource) :=
  match p with
  | RProcess.transport _ =>
    match CapabilityRouter_get_next_resource_per_ID all p heuristic with
    | some r => Except.ok (some r)
    | none => Except.error "IndexError"
  | RProcess.capability _ c =>
    let possible := all.filter (fun r =>
      (get_resource_capabilities r).contains c && !(r.input_queues.any Queue.full))
    if possible.isEmpty then Except.ok none
    else
      match heuristic possible with
      | some r => Except.ok (some r)
      | none => Except.error "IndexError"
  | RProcess.production _ =>
    Except.error "ValueError: CapabilityRouter can only be used with CapabilityProcess or TransportProcess"

theorem foldl_simpleEliminate_subset (todo : List Resource) :
    ∀ L : List Resource, todo.foldl simpleEliminate L ⊆ L := by
  induction todo with
  | nil => intro L x hx; simpa using hx
  | cons t ts ih =>
    intro L x hx
    have hx' : x ∈ simpleEliminate L t := ih (simpleEliminate L t) hx
    simp only [simpleEliminate] at hx'
    split at hx'
    · exact List.filter_subset' L hx'
    · exact hx'

theorem bad_not_mem_foldl {r : Resource} (todo : List Resource) (hmem : r ∈ todo)
    (hbad : (r.isProduction && r.input_queues.any Queue.full) = true) :
    ∀ L : List Resource, r ∉ todo.foldl simpleEliminate L := by
  induction todo with
  | nil => cases hmem
  | cons t ts ih =>
    intro L hin
    rcases List.mem_cons.mp hmem with heq | hmem'
    · subst heq
      have hsub : r ∈ simpleEliminate L r :=
        foldl_simpleEliminate_subset ts (simpleEliminate L r) hin
      simp only [simpleEliminate, hbad, if_pos] at hsub
      have := List.of_mem_filter hsub
      simp at this
    · exact ih hmem' (simpleEliminate L t) hin

theorem good_mem_foldl {r : Resource} (todo : List Resource)
    (hok : ∀ t ∈ todo, (t.isProduction && t.input_queues.any Queue.full) = true →
      (r.id == t.id) = false) :
    ∀ L : List Resource, r ∈ L → r ∈ todo.foldl simpleEliminate L := by
  induction todo with
  | nil => intro L hL; simpa using hL
  | cons t ts ih =>
    intro L hL
    simp only [List.foldl_cons]
    refine ih (fun u hu hb => hok u (List.mem_cons_of_mem t hu) hb) _ ?_
    simp only [simpleEliminate]
    split
    · rename_i hb
      exact List.mem_filter.mpr ⟨hL, by simp [hok t (List.mem_cons_self t ts) hb]⟩
    · exact hL

/-- C5 (counterexample).  For a transport process with an empty candidate
set, `CapabilityRouter.get_next_resource` does not return `None`: it calls
the routing heuristic on the empty list (here FIFO, whose `pop(0)` raises
`IndexError`). -/
theorem capability_router_empty_transport_counterexample :
    CapabilityRouter_get_next_resource [] (RProcess.transport 1) FIFO_routing_heuristic
        = Except.error "IndexError" ∧
    CapabilityRouter_get_next_resource [] (RProcess.transport 1) FIFO_routing_heuristic
        ≠ Except.ok none := by
  constructor
  · rfl
  · intro h
    cases h

/-- C5 (amended).  `SimpleRouter.get_next_resource` never returns a
production resource that has a full input queue (per `full()`, which counts
pending reservations) and returns `None` when the eligible set is empty;
`CapabilityRouter.get_next_resource` behaves likewise on capability
processes (rejecting any resource with a full input queue); but on a
transport process the capability router applies no queue check and raises
instead of returning `None` when the candidate set is empty. -/
theorem router_backpressure (all : List Resource) (p : RProcess)
    (heuristic : List Resource → Option Resource)
    (hh : ∀ l r, heuristic l = some r → r ∈ l) :
    (∀ r, SimpleRouter_get_next_resource all p heuristic = some r →
      r.isProduction = true → ∀ q ∈ r.input_queues, q.full = false) ∧
    ((simpleEligible (get_resources_with_process all p)).isEmpty = true →
      SimpleRouter_get_next_resource all p heuristic = none) ∧
    (∀ pid c r,
      CapabilityRouter_get_next_resource all (RProcess.capability pid c) heuristic
          = Except.ok (some r) →
      (r.input_queues.any Queue.full) = false) ∧
    (∀ pid c,
      (all.filter (fun r =>
        (get_resource_capabilities r).contains c
          && !(r.input_queues.any Queue.full))).isEmpty = true →
      CapabilityRouter_get_next_resource all (RProcess.capability pid c) heuristic
        = Except.ok none) := by
  refine ⟨?_, ?_, ?_, ?_⟩
  · intro r hres hprod q hq
    simp only [SimpleRouter_get_next_resource] at hres
    by_cases hemp : (simpleEligible (get_resources_with_process all p)).isEmpty
    · simp [hemp] at hres
    · rw [if_neg hemp] at hres
      have hmemL : r ∈ simpleEligible (get_resources_with_process all p) := hh _ _ hres
      have hmemP : r ∈ get_resources_with_process all p :=
        foldl_simpleEliminate_subset _ _ hmemL
      by_contra hfull
      have hfull' : q.full = true := by
        cases hqf : q.full
        · exact absurd hqf hfull
        · rfl
      have hbad : (r.isProduction && r.input_queues.any Queue.full) = true := by
        refine Bool.and_eq_true_iff.mpr ⟨hprod, ?_⟩
        exact List.any_eq_true.mpr ⟨q, hq, hfull'⟩
      exact bad_not_mem_foldl _ hmemP hbad _ hmemL
  · intro hemp
    simp [SimpleRouter_get_next_resource, hemp]
  · intro pid c r hres
    simp only [CapabilityRouter_get_next_resource] at hres
    split at hres
    · cases hres
    · cases hheu : heuristic (all.filter (fun r =>
          (get_resource_capabilities r).contains c
            && !(r.input_queues.any Queue.full))) with
      | none => rw [hheu] at hres; cases hres
      | some r' =>
        rw [hheu] at hres
        have hrr : r' = r := by
          cases hres
          rfl
        subst hrr
        have hmem := hh _ _ hheu
        have := List.of_mem_filter hmem
        have h2 := (Bool.and_eq_true_iff.mp this).2
        simpa using h2
  · intro pid c hemp
    simp only [CapabilityRouter_get_next_resource]
    rw [if_pos hemp]

/-- Witness for `router_backpressure`: FIFO heuristic, no resources. -/
theorem router_backpressure_witness :
    SimpleRouter_get_next_resource [] (RProcess.production 5) FIFO_routing_heuristic = none := by
  have hh : ∀ (l : List Resource) r, FIFO_routing_heuristic l = some r → r ∈ l := by
    intro l r h
    cases l with
    | nil => cases h
    | cons a t =>
      have : a = r := by
        simpa [FIFO_routing_heuristic] using h
      simp [this.symm]
  exact (router_backpressure [] (RProcess.production 5) FIFO_routing_heuristic hh).2.1 (by decide)

/-- C10.  `SimpleRouter.get_next_resource` applies the queue-fullness
admission check only to production resources: a non-production resource in
the possible set (with pairwise distinct resource IDs) is never eliminated,
whatever the state of any queue, and the router's result is then just the
heuristic applied to the non-empty eligible set. -/
theorem simple_router_ignores_nonproduction (all : List Resource) (p : RProcess)
    (heuristic : List Resource → Option Resource) (r : Resource)
    (hnodup : ((get_resources_with_process all p).map Resource.id).Nodup)
    (hmem : r ∈ get_resources_with_process all p)
    (hnp : r.isProduction = false) :
    r ∈ simpleEligible (get_resources_with_process all p) ∧
    SimpleRouter_get_next_resource all p heuristic
      = heuristic (simpleEligible (get_resources_with_process all p)) := by
  have hok : ∀ t ∈ get_resources_with_process all p,
      (t.isProduction && t.input_queues.any Queue.full) = true → (r.id == t.id) = false := by
    intro t ht hbad
    have htprod : t.isProduction = true := (Bool.and_eq_true_iff.mp hbad).1
    have hne : r ≠ t := by
      intro he
      rw [he] at hnp
      rw [hnp] at htprod
      cases htprod
    have : r.id ≠ t.id := by
      intro hid
      exact hne (List.inj_on_of_nodup_map hnodup hmem ht hid)
    simpa using this
  have hr : r ∈ simpleEligible (get_resources_with_process all p) :=
    good_mem_foldl _ hok _ hmem
  refine ⟨hr, ?_⟩
  have hne : (simpleEligible (get_resources_with_process all p)).isEmpty = false := by
    cases hq : (simpleEligible (get_resources_with_process all p)).isEmpty
    · rfl
    · rw [List.isEmpty_iff] at hq
      rw [hq] at hr
      cases hr
  simp [SimpleRouter_get_next_resource, hne]

/-- Witness for `simple_router_ignores_nonproduction`: a single transport
resource offering the requested transport process. -/
theorem simple_router_ignores_nonproduction_witness :
    (⟨0, false, [], [RProcess.transport 3]⟩ : Resource) ∈
      simpleEligible (get_resources_with_process
        [⟨0, false, [], [RProcess.transport 3]⟩] (RProcess.transport 3)) :=
  (simple_router_ignores_nonproduction
    [⟨0, false, [], [RProcess.transport 3]⟩] (RProcess.transport 3)
    FIFO_routing_heuristic ⟨0, false, [], [RProcess.transport 3]⟩
    (by decide) (by decide) rfl).1

/-! ## Transport dispatch — `TransportController.start_process` (lines 411-472)

The dispatch body is straight-line generator code; we embed it as the
sequence of observable actions it performs (moves of the transport resource
along a path, queue retrievals/insertions, reservation release, completion
signals), with `Except.error` for its raising paths. -/

inductive LocKind where
  | production
  | sourceK
  | sinkK
  | transportK
deriving DecidableEq, Repr

/-- A located entity (resource, source, sink): its ID, what it is, the
result of `get_location()`, and how many output queues it owns. -/
structure Station where
  id : Nat
  kind : LocKind
  location : Loc
  outputQueueCount : Nat
deriving DecidableEq

/-- Whether the request's process is a `LinkTransportProcess` (whose path
to the origin comes from the external `path_finder`, embedded as the
stored list) or a simple transport process. -/
inductive TransportKind where
  | link (path_to_origin : List Station)
  | simple
deriving DecidableEq

/-- The fields of `request.TransportResquest` that `start_process` reads:
`get_origin()`, `get_target()`, `get_path()` and the process kind. -/
structure TransportJob where
  origin : Station
  target : Station
  path : List Station
  kind : TransportKind
deriving DecidableEq

inductive TAction where
  | move (fromId toId : Nat) (empty_transport : Bool)
  | retrieveProduct (stationId : Nat)
  | putProduct (stationId : Nat)
  | unreserve_input_queues (stationId : Nat)
  | finishedSignal
deriving DecidableEq, Repr

/-- `run_transport` (lines 474-500): one `run_process` move per consecutive
pair `zip(path, path[1:])` of the path, all with the given
`empty_transport` flag. -/
def run_transport (path : List Station) (empty_transport : Bool) : List TAction :=
  (path.zip path.tail).map (fun ab => TAction.move ab.1.id ab.2.id empty_transport)

/-- `find_path_to_origin` (lines 546-562): for a `LinkTransportProcess` the
external path-finder's result, raising `PathNotFound` (a `ValueError`) when
it is empty; otherwise just `[self._current_location, origin]`. -/
def find_path_to_origin (current : Station) (rq : TransportJob) :
    Except String (List Station) :=
  match rq.kind with
  | TransportKind.link pth =>
    if pth.isEmpty then Except.error "PathNotFound" else Except.ok pth
  | TransportKind.simple => Except.ok [current, rq.origin]

/-- `TransportController.start_process` (lines 411-472), as the list of
actions it performs after acquiring the capacity slot: an empty
repositioning leg when the resource is not at the origin
(`origin.get_location() != resource.get_location()`), the retrieval of the
product from the origin's output queues (`ValueError` when the origin is
not a production resource or source, or has no output queue), the loaded
leg along `get_path()`, the insertion into the target's input queues
(`ValueError` when the target is not a production resource or sink), the
release of the target's input-queue reservation for production targets,
and the completion signals (`got_free`, `finished_process`). -/
def transport_start_process (current : Station) (rq : TransportJob) :
    Except String (List TAction) :=
  let emptyLegE : Except String (List TAction) :=
    if rq.origin.location = current.location then Except.ok []
    else (find_path_to_origin current rq).map (fun p => run_transport p true)
  match emptyLegE with
  | Except.error e => Except.error e
  | Except.ok emptyLeg =>
    if rq.origin.kind = LocKind.production ∨ rq.origin.kind = LocKind.sourceK then
      if rq.origin.outputQueueCount = 0 then
        Except.error "ValueError: No product in queue"
      else if rq.target.kind = LocKind.production ∨ rq.target.kind = LocKind.sinkK then
        Except.ok
          (emptyLeg ++ [TAction.retrieveProduct rq.origin.id]
            ++ run_transport rq.path false
            ++ [TAction.putProduct rq.target.id]
            ++ (if rq.target.kind = LocKind.production then
                  [TAction.unreserve_input_queues rq.target.id]
                else [])
            ++ [TAction.finishedSignal])
      else Except.error "ValueError: not a ProductionResource or Sink"
    else Except.error "ValueError: not a ProductionResource or Source"

/-- C8.  A dispatched transport request proceeds in this order: when the
transport resource is not at the request's origin it first runs an empty
repositioning leg along the path to the origin, then picks the product up
at the origin, then runs the loaded leg to the target, then drops the
product off, and releases the destination's input-queue reservation
exactly when the target is a production resource; when the resource is
already at the origin the empty leg is skipped; and for a simple (non-link)
transport process the empty leg is the direct hop from the current
location to the origin. -/
theorem transport_start_process_sequence (current : Station) (rq : TransportJob)
    (hOrigin : rq.origin.kind = LocKind.production ∨ rq.origin.kind = LocKind.sourceK)
    (hQ : 0 < rq.origin.outputQueueCount)
    (hTarget : rq.target.kind = LocKind.production ∨ rq.target.kind = LocKind.sinkK) :
    (∀ p, rq.origin.location ≠ current.location →
      find_path_to_origin current rq = Except.ok p →
      transport_start_process current rq = Except.ok
        (run_transport p true ++ [TAction.retrieveProduct rq.origin.id]
          ++ run_transport rq.path false
          ++ [TAction.putProduct rq.target.id]
          ++ (if rq.target.kind = LocKind.production then
                [TAction.unreserve_input_queues rq.target.id]
              else [])
          ++ [TAction.finishedSignal])) ∧
    (rq.origin.location = current.location →
      transport_start_process current rq = Except.ok
        ([TAction.retrieveProduct rq.origin.id]
          ++ run_transport rq.path false
          ++ [TAction.putProduct rq.target.id]
          ++ (if rq.target.kind = LocKind.production then
                [TAction.unreserve_input_queues rq.target.id]
              else [])
          ++ [TAction.finishedSignal])) ∧
    (rq.kind = TransportKind.simple →
      find_path_to_origin current rq = Except.ok [current, rq.origin]) := by
  have hQ' : ¬rq.origin.outputQueueCount = 0 := by omega
  refine ⟨?_, ?_, ?_⟩
  · intro p hneq hp
    have hne' : ¬rq.origin.location = current.location := fun he => hneq he
    rcases hOrigin with hO | hO <;> rcases hTarget with hT | hT <;>
      simp [transport_start_process, hp, hne', hO, hT, hQ', Except.map]
  · intro heq
    rcases hOrigin with hO | hO <;> rcases hTarget with hT | hT <;>
      simp [transport_start_process, heq, hO, hT, hQ']
  · intro hk
    simp [find_path_to_origin, hk]

/-- Witness for `transport_start_process_sequence`: a source-to-production
transport with a simple process, the transport resource elsewhere. -/
theorem transport_start_process_sequence_witness :
    transport_start_process ⟨0, LocKind.transportK, ((0 : Int), (0 : Int)), 0⟩
        ⟨⟨1, LocKind.sourceK, ((5 : Int), (5 : Int)), 1⟩,
         ⟨2, LocKind.production, ((9 : Int), (9 : Int)), 0⟩,
         [⟨1, LocKind.sourceK, ((5 : Int), (5 : Int)), 1⟩,
          ⟨2, LocKind.production, ((9 : Int), (9 : Int)), 0⟩],
         TransportKind.simple⟩ =
      Except.ok
        [TAction.move 0 1 true, TAction.retrieveProduct 1, TAction.move 1 2 false,
         TAction.putProduct 2, TAction.unreserve_input_queues 2,
         TAction.finishedSignal] := by
  have h := transport_start_process_sequence
    ⟨0, LocKind.transportK, ((0 : Int), (0 : Int)), 0⟩
    ⟨⟨1, LocKind.sourceK, ((5 : Int), (5 : Int)), 1⟩,
     ⟨2, LocKind.production, ((9 : Int), (9 : Int)), 0⟩,
     [⟨1, LocKind.sourceK, ((5 : Int), (5 : Int)), 1⟩,
      ⟨2, LocKind.production, ((9 : Int), (9 : Int)), 0⟩],
     TransportKind.simple⟩
    (Or.inr rfl) (by decide) (Or.inl rfl)
  have h1 := h.1 [⟨0, LocKind.transportK, ((0 : Int), (0 : Int)), 0⟩,
      ⟨1, LocKind.sourceK, ((5 : Int), (5 : Int)), 1⟩]
    (by decide) (h.2.2 rfl)
  simpa using h1

end Prodsys
